import Mathlib

/-!
Verification development for the somber self-organizing-map (SOM) library.

The Python sources are embedded shallowly:

* scalars become rationals (for decidable arithmetic) or reals (where the
  code applies exp / sqrt),
* numpy arrays become functions out of natural-number indices or lists,
* fallible Python code returns Except values, with the specific exception
  class modelled as an inductive type,
* in-place mutation becomes explicit state passing (records threaded
  through folds that mirror the Python loops).

Parts of the repository exist only as callers (somber/batch/som.py and
somber/utils.py are imported by somber/batch/sequential.py but are not part
of the source tree here); definitions standing in for those are marked
"Modelled from the spec:" in their doc comments.
-/

/- ===================== Schedule functions (src/src/utils.py) ===================== -/

/-- ArithmeticError subclasses raised by Python scalar arithmetic.  Division of a
Python int or float by zero raises ZeroDivisionError. -/
inductive ArithError
  | zeroDivision
deriving DecidableEq

/-- Python true division on plain (non-numpy) scalars: raises ZeroDivisionError
when the divisor is zero, otherwise returns the exact quotient. -/
def pyDiv (a b : ℚ) : Except ArithError ℚ :=
  if b = 0 then Except.error ArithError.zeroDivision else Except.ok (a / b)

/-- expo from src/src/utils.py (the same function is duplicated at the top of
src/som.py): `value * np.exp(-current_epoch / lam)`.  The quotient
`-current_epoch / lam` is evaluated first and raises when `lam = 0`; otherwise
np.exp of a finite scalar is total. -/
noncomputable def expo (value current_epoch lam : ℚ) : Except ArithError ℝ :=
  (pyDiv (-current_epoch) lam).map (fun q => (value : ℝ) * Real.exp (q : ℝ))

/-- linear from src/src/utils.py:
`(value * (total_epochs - current_epoch) / total_epochs) + 0.5`.  The division
raises when `total_epochs = 0`; the `+ 0.5` offset is applied to the quotient. -/
def linear (value current_epoch total_epochs : ℚ) : Except ArithError ℚ :=
  (pyDiv (value * (total_epochs - current_epoch)) total_epochs).map (fun q => q + 1/2)

/- ===================== Grid topology (src/som.py) ===================== -/

/-- ravel of a matrix with `cols` columns in C (row-major) order: flat position
`j` holds the entry at row `j / cols`, column `j % cols`. -/
def ravel (cols : ℕ) (f : ℕ → ℕ → ℤ) : ℕ → ℤ :=
  fun j => f (j / cols) (j % cols)

/-- Som._grid_dist (src/som.py lines 209-222): `rows = self.height`,
`cols = self.width`, `node_col = int(index % cols)`, `node_row = int(index / cols)`;
`dist2[r][c] = (r - node_row)**2 + (c - node_col)**2` for `r` ranging over rows and
`c` over cols, returned raveled.  `height` only fixes the row extent of `dist2`
(its raveled length), so it does not appear in the entry formula. -/
def gridDist (width height index : ℕ) : ℕ → ℤ :=
  let cols := width
  let node_col : ℤ := (index % cols : ℕ)
  let node_row : ℤ := (index / cols : ℕ)
  ravel cols (fun r c => ((r : ℤ) - node_row) ^ 2 + ((c : ℤ) - node_col) ^ 2)

/-- the cached `_index_dict` built in Som.__init__ (src/som.py line 49):
`idx ↦ (idx // self.height, idx % self.height)`. -/
def indexDictCoord (height idx : ℕ) : ℕ × ℕ :=
  (idx / height, idx % height)

/-- the `(node_row, node_col)` pair computed inside Som._grid_dist:
with `cols = self.width`, `node_row = int(index / cols)` and
`node_col = int(index % cols)`. -/
def gridDistCoord (width idx : ℕ) : ℕ × ℕ :=
  (idx / width, idx % width)

/-- Som._calculate_distance_grid (src/som.py lines 199-207): row `i` of the
cached `(map_dim, map_dim)` matrix is `_grid_dist(i)`. -/
def calculateDistanceGrid (width height : ℕ) : ℕ → ℕ → ℤ :=
  fun i j => gridDist width height i j

/-- Som._distance_grid(radius) (src/som.py lines 149-153):
`np.exp(-1.0 * self.distance_grid / (2.0 * radius ** 2))`, elementwise, reshaped
to `(map_dim, map_dim)` (the reshape does not change entries). -/
noncomputable def influenceGrid (width height : ℕ) (radius : ℝ) : ℕ → ℕ → ℝ :=
  fun i j => Real.exp (-1.0 * (calculateDistanceGrid width height i j : ℝ) / (2.0 * radius ^ 2))

/- ===================== Sequential / Recursive / Merging construction
     (src/somber/batch/sequential.py) ===================== -/

/-- tags for the schedule callables of somber (expo, linear, static live in the
module utils; only expo and linear are used by save/load). -/
inductive FnTag
  | expo
  | linear
  | static
deriving DecidableEq

/-- tags for the winner-selection callables np_min / np_max. -/
inductive MinMaxTag
  | min
  | max
deriving DecidableEq

/-- a Python value as it can appear in a constructor argument slot: a numeric
value, a schedule function object, or None.  Needed because the positional
super() calls in sequential.py move values between slots of different intended
types. -/
inductive PyVal
  | num (q : ℚ)
  | fn (t : FnTag)
  | noneV
deriving DecidableEq

/-- Modelled from the spec: Sequential.__init__ (src/somber/batch/sequential.py
lines 20-54) has the positional parameter order
`(map_dim, data_dim, learning_rate, sigma, lrfunc, nbfunc, min_max,
distance_function, influence_size)` and forwards them in that same order to the
base som constructor, which lives in somber/batch/som.py and is not part of the
source tree; per spec section 6 the base constructor stores each parameter
under its own name.  The distance_function slot (always euclidean here) is not
tracked. -/
structure SequentialState where
  map_dim : List ℕ
  data_dim : ℕ
  learning_rate : PyVal
  sigma : PyVal
  lrfunc : PyVal
  nbfunc : PyVal
  minMax : MinMaxTag
  influence_size : Option ℕ
deriving DecidableEq

/-- Sequential.__init__ as a function of its positional parameters: every
argument is stored in the slot it arrives in. -/
def sequentialInit (map_dim : List ℕ) (data_dim : ℕ)
    (learning_rate sigma lrfunc nbfunc : PyVal) (min_max : MinMaxTag)
    (influence_size : Option ℕ) : SequentialState :=
  { map_dim := map_dim
    data_dim := data_dim
    learning_rate := learning_rate
    sigma := sigma
    lrfunc := lrfunc
    nbfunc := nbfunc
    minMax := min_max
    influence_size := influence_size }

/-- Modelled from the spec: `weight_dim` is set by the missing
somber/batch/som.py base constructor; spec section 3 fixes the Recursive context
matrix shape to `(num_units, num_units)` where num_units is the product of the
map dimensions. -/
def weightDim (map_dim : List ℕ) : ℕ :=
  map_dim.prod

/-- state of a Recursive model after construction (attributes assigned in
Recursive.__init__ and by Recursive.load). -/
structure RecursiveState where
  base : SequentialState
  weights : List (List ℚ)
  context_weights : List (List ℚ)
  alpha : PyVal
  beta : PyVal
  trained : Bool
deriving DecidableEq

/-- Recursive.__init__ (src/somber/batch/sequential.py lines 196-258): its own
parameter order is `(map_dim, data_dim, learning_rate, alpha, beta, sigma,
lrfunc, nbfunc)` and its super() call passes
`(map_dim, data_dim, learning_rate, lrfunc, nbfunc, sigma)` positionally —
exactly as written in the source — together with `min_max=np_max` and
`influence_size=reduce(np.multiply, map_dim)` by keyword; it then sets
`context_weights` to a `(weight_dim, weight_dim)` zero matrix and stores alpha
and beta.  `initWeights` stands for the random weight draw of the missing base
constructor. -/
def recursiveInit (map_dim : List ℕ) (data_dim : ℕ)
    (learning_rate alpha beta sigma lrfunc nbfunc : PyVal)
    (initWeights : List (List ℚ)) : RecursiveState :=
  let base := sequentialInit map_dim data_dim learning_rate lrfunc nbfunc sigma
    MinMaxTag.max (some (weightDim map_dim))
  { base := base
    weights := initWeights
    context_weights :=
      List.replicate (weightDim map_dim) (List.replicate (weightDim map_dim) 0)
    alpha := alpha
    beta := beta
    trained := false }

/-- state of a Merging model after construction (attributes assigned in
Merging.__init__ and by Merging.load). -/
structure MergingState where
  base : SequentialState
  weights : List (List ℚ)
  context_weights : List (List ℚ)
  alpha : PyVal
  beta : PyVal
  entropy : ℚ
  trained : Bool
deriving DecidableEq

/-- np.ones(weights.shape): a matrix of ones with exactly the shape of the
given matrix. -/
def onesLike (w : List (List ℚ)) : List (List ℚ) :=
  w.map (fun row => row.map (fun _ => (1 : ℚ)))

/-- Merging.__init__ (src/somber/batch/sequential.py lines 352-408): parameter
order `(map_dim, data_dim, learning_rate, alpha, beta, sigma, lrfunc, nbfunc,
min_max, distance_function)`; its super() call passes
`(map_dim, data_dim, learning_rate, lrfunc, nbfunc, sigma, min_max,
distance_function)` positionally, as written in the source; then
`context_weights = np.ones_like(self.weights)` and `entropy = 0`. -/
def mergingInit (map_dim : List ℕ) (data_dim : ℕ)
    (learning_rate alpha beta sigma lrfunc nbfunc : PyVal)
    (min_max : MinMaxTag) (initWeights : List (List ℚ)) : MergingState :=
  let base := sequentialInit map_dim data_dim learning_rate lrfunc nbfunc sigma
    min_max none
  { base := base
    weights := initWeights
    context_weights := onesLike initWeights
    alpha := alpha
    beta := beta
    entropy := 0
    trained := false }

/- ===================== Persistence: Recursive.load / Merging.load ===================== -/

/-- a parsed JSON model file for Recursive.load: the first six keys are
required (a KeyError on them propagates), the remaining ones are optional
(read inside try/except KeyError blocks). -/
structure RecursiveSaveData where
  weights : List (List ℚ)
  dimensions : List ℕ
  lrfuncTag : String
  nbfuncTag : String
  lr : ℚ
  sigma : ℚ
  context_weights : Option (List (List ℚ))
  alpha : Option ℚ
  beta : Option ℚ
deriving DecidableEq

/-- a parsed JSON model file for Merging.load; like RecursiveSaveData but with
entropy read in the same try/except block as alpha and beta. -/
structure MergingSaveData where
  weights : List (List ℚ)
  dimensions : List ℕ
  lrfuncTag : String
  nbfuncTag : String
  lr : ℚ
  sigma : ℚ
  context_weights : Option (List (List ℚ))
  alpha : Option ℚ
  beta : Option ℚ
  entropy : Option ℚ
deriving DecidableEq

/-- Recursive.load (src/somber/batch/sequential.py lines 300-349): required
keys are read directly; `context_weights` falls back to a zero matrix of shape
`(len(weights), len(weights))` on KeyError; `alpha` and `beta` are read inside
one try block, so a KeyError on either one makes the except branch assign the
defaults `alpha = 3.0, beta = 1.0` to both; the constructor is then called with
keyword arguments and weights / context_weights / trained are overwritten. -/
def recursiveLoad (d : RecursiveSaveData) : RecursiveState :=
  let weights := d.weights
  let datadim := (weights.headD []).length
  let lrf : FnTag := if d.lrfuncTag = "expo" then FnTag.expo else FnTag.linear
  let nbf : FnTag := if d.nbfuncTag = "expo" then FnTag.expo else FnTag.linear
  let context_weights :=
    match d.context_weights with
    | some cw => cw
    | none => List.replicate weights.length (List.replicate weights.length 0)
  let ab : ℚ × ℚ :=
    match d.alpha, d.beta with
    | some a, some b => (a, b)
    | _, _ => (3, 1)
  let s := recursiveInit d.dimensions datadim (PyVal.num d.lr) (PyVal.num ab.1)
    (PyVal.num ab.2) (PyVal.num d.sigma) (PyVal.fn lrf) (PyVal.fn nbf) []
  { s with weights := weights, context_weights := context_weights, trained := true }

/-- Merging.load (src/somber/batch/sequential.py lines 592-638):
`context_weights` falls back to `np.ones(weights.shape)` on KeyError; `alpha`,
`beta` and `entropy` are read inside one try block, so a KeyError on any of the
three makes the except branch assign `alpha = 0.0, beta = 0.5, entropy = 0.0`
to all of them; then the constructor runs and entropy / weights /
context_weights / trained are overwritten. -/
def mergingLoad (d : MergingSaveData) : MergingState :=
  let weights := d.weights
  let datadim := (weights.headD []).length
  let lrf : FnTag := if d.lrfuncTag = "expo" then FnTag.expo else FnTag.linear
  let nbf : FnTag := if d.nbfuncTag = "expo" then FnTag.expo else FnTag.linear
  let context_weights :=
    match d.context_weights with
    | some cw => cw
    | none => onesLike weights
  let abe : ℚ × ℚ × ℚ :=
    match d.alpha, d.beta, d.entropy with
    | some a, some b, some e => (a, b, e)
    | _, _, _ => (0, 1/2, 0)
  let s := mergingInit d.dimensions datadim (PyVal.num d.lr) (PyVal.num abe.1)
    (PyVal.num abe.2.1) (PyVal.num d.sigma) (PyVal.fn lrf) (PyVal.fn nbf)
    MinMaxTag.min []
  { s with entropy := abe.2.2, weights := weights,
           context_weights := context_weights, trained := true }

/-- a concrete Recursive model file with every optional key present, used by
the C5 witness. -/
def recFileAllKeys : RecursiveSaveData :=
  { weights := [[0]]
    dimensions := [1, 1]
    lrfuncTag := "expo"
    nbfuncTag := "expo"
    lr := 1
    sigma := 1
    context_weights := some [[2]]
    alpha := some 5
    beta := some 7 }

/-- a concrete Recursive model file whose alpha key is present (value 5) but
whose beta key is absent, used by the C5 counterexample. -/
def recFileBetaMissing : RecursiveSaveData :=
  { weights := [[0]]
    dimensions := [1, 1]
    lrfuncTag := "expo"
    nbfuncTag := "expo"
    lr := 1
    sigma := 1
    context_weights := none
    alpha := some 5
    beta := none }

/- ===================== BMU search primitives ===================== -/

/-- np.argmin over indices `0 .. m-1`: the fold keeps the earlier index on
ties, matching numpy's first-occurrence semantics. -/
noncomputable def argminIdx (m : ℕ) (f : ℕ → ℝ) : ℕ :=
  (List.range m).foldl (fun best u => if f u < f best then u else best) 0

/-- np.argmax over indices `0 .. m-1`, first occurrence on ties. -/
noncomputable def argmaxIdx (m : ℕ) (f : ℕ → ℝ) : ℕ :=
  (List.range m).foldl (fun best u => if f best < f u then u else best) 0

/-- Modelled from the spec: np_min lives in the missing somber/utils.py; it
returns the minimum along the axis together with its index, and is the
winner-selection function of distance-based variants. -/
noncomputable def npMin (m : ℕ) (f : ℕ → ℝ) : ℝ × ℕ :=
  (f (argminIdx m f), argminIdx m f)

/-- Modelled from the spec: np_max lives in the missing somber/utils.py; it
returns the maximum along the axis together with its index, and is the
winner-selection function of the Recursive (similarity-based) variant. -/
noncomputable def npMax (m : ℕ) (f : ℕ → ℝ) : ℝ × ℕ :=
  (f (argmaxIdx m f), argmaxIdx m f)

/-- interpretation of a stored min_max tag as the winner-selection function it
names. -/
noncomputable def minMaxApply : MinMaxTag → ℕ → (ℕ → ℝ) → ℝ × ℕ
  | MinMaxTag.min => npMin
  | MinMaxTag.max => npMax

/-- Som._pseudo_distance composed with the square/sum/sqrt of Som._get_bmus
(src/som.py lines 155-196): the Euclidean distance of input `x` to every
unit's weight vector. -/
noncomputable def somDistances (d : ℕ) (weights : ℕ → ℕ → ℝ) (x : ℕ → ℝ) :
    ℕ → ℝ :=
  fun u => Real.sqrt (∑ j ∈ Finset.range d, (x j - weights u j) ^ 2)

/-- Som._get_bmus (src/som.py): `np.argmin(distances, axis=1)` for one input
row. -/
noncomputable def somBmu (m d : ℕ) (weights : ℕ → ℕ → ℝ) (x : ℕ → ℝ) : ℕ :=
  argminIdx m (somDistances d weights x)

/-- Modelled from the spec: the distance_function `euclidean` imported from the
missing somber/batch/som.py; per spec sections 1 and 4.4 it is the Euclidean
distance between an input vector and each unit's row of the given matrix. -/
noncomputable def euclidean (d : ℕ) (x : ℕ → ℝ) (w : ℕ → ℕ → ℝ) : ℕ → ℝ :=
  fun u => Real.sqrt (∑ j ∈ Finset.range d, (x j - w u j) ^ 2)

/-- Recursive._get_bmus (src/somber/batch/sequential.py lines 274-298), one
batch row: `activation = np.exp(-(np.multiply(distance_x, alpha) +
np.multiply(distance_y, beta)))` with `distance_x` the euclidean distance of
the input to the weights and `distance_y` the euclidean distance of the
previous activation to the context weights. -/
noncomputable def recursiveGetBmus (m d : ℕ) (alpha beta : ℝ)
    (wts cw : ℕ → ℕ → ℝ) (x prev : ℕ → ℝ) : ℕ → ℝ :=
  fun u => Real.exp (-(euclidean d x wts u * alpha + euclidean m prev cw u * beta))

/- ===================== Batch epoch step (src/som.py Som.epoch_step) ===================== -/

/-- np.ceil(len(X) / batch_size).astype(int) for natural inputs. -/
def numBatches (n bs : ℕ) : ℕ :=
  (n + bs - 1) / bs

/-- the mini-batch `X[index * batch_size : (index+1) * batch_size]`. -/
def sliceBatch (X : List (ℕ → ℝ)) (bs index : ℕ) : List (ℕ → ℝ) :=
  (X.drop (index * bs)).take bs

/-- influences computed once per epoch in Som.epoch_step (src/som.py lines
123-125): `self._distance_grid(map_radius) * learning_rate[0]`, replicated
along the data dimension by the asarray/transpose (so the value does not
depend on the last index). -/
noncomputable def somInfluences (w h : ℕ) (radius lr0 : ℝ) : ℕ → ℕ → ℕ → ℝ :=
  fun b u _j => influenceGrid w h radius b u * lr0

/-- Som._batch composed with Som._calculate_update (src/som.py lines 155-178):
`update = (differences * influences[bmus]).mean(axis=0)` where differences are
the per-example difference tensors against the current weights and each
example contributes the influence row of its BMU. -/
noncomputable def batchUpdate (m d : ℕ) (infl : ℕ → ℕ → ℕ → ℝ)
    (weights : ℕ → ℕ → ℝ) (batch : List (ℕ → ℝ)) : ℕ → ℕ → ℝ :=
  fun u j =>
    (batch.map (fun x => (x j - weights u j) * infl (somBmu m d weights x) u j)).sum /
      (batch.length : ℝ)

/-- the state threaded through the mini-batch loop of Som.epoch_step: the
weight matrix (read but never written inside the loop), the per-epoch
accumulator, the update counter and the collected activations. -/
structure SomEpochState where
  weights : ℕ → ℕ → ℝ
  accumulator : ℕ → ℕ → ℝ
  numUpdates : ℕ
  allActivations : List (ℕ → ℝ)

/-- one iteration of the mini-batch loop in Som.epoch_step (src/som.py lines
136-145): slice the batch, compute its update from the current weights, extend
the activations, add the update to the accumulator and bump num_updates.  The
loop body contains no assignment to the weights. -/
noncomputable def somEpochBody (m d bs : ℕ) (infl : ℕ → ℕ → ℕ → ℝ)
    (X : List (ℕ → ℝ)) (s : SomEpochState) (index : ℕ) : SomEpochState :=
  let batch := sliceBatch X bs index
  { weights := s.weights
    accumulator := fun u j => s.accumulator u j + batchUpdate m d infl s.weights batch u j
    numUpdates := s.numUpdates + 1
    allActivations := s.allActivations ++ batch.map (somDistances d s.weights) }

/-- the full mini-batch loop of Som.epoch_step, starting from a zero
accumulator and zero update counter. -/
noncomputable def somEpochLoop (m d bs : ℕ) (infl : ℕ → ℕ → ℕ → ℝ)
    (X : List (ℕ → ℝ)) (s0 : SomEpochState) : SomEpochState :=
  (List.range (numBatches X.length bs)).foldl (somEpochBody m d bs infl X) s0

/-- Som.epoch_step (src/som.py lines 110-147): computes the influences from
the radius and first learning rate, runs the mini-batch loop, then performs
the single weight mutation `self.weights += accumulator / num_updates` and
returns the new weights with the collected activation array. -/
noncomputable def epochStep (w h d : ℕ) (map_radius lr0 : ℝ)
    (X : List (ℕ → ℝ)) (bs : ℕ) (weights0 : ℕ → ℕ → ℝ) :
    (ℕ → ℕ → ℝ) × List (ℕ → ℝ) :=
  let infl := somInfluences w h map_radius lr0
  let s := somEpochLoop (w * h) d bs infl X
    { weights := weights0, accumulator := fun _ _ => 0, numUpdates := 0,
      allActivations := [] }
  (fun u j => s.weights u j + s.accumulator u j / (s.numUpdates : ℝ),
    s.allActivations)

/- ===================== Som.train (src/som.py) ===================== -/

/-- the Python names that occur in Som.train: its parameters, the locals it
assigns before the resize of X, and the module-level globals of src/som.py.
`num_batches` is a distinct name assigned only inside Som.epoch_step. -/
inductive VarName
  | selfArg
  | xArg
  | numEpochs
  | batchSize
  | learningRate
  | bmusVar
  | realStart
  | npModule
  | timeModule
  | loggingModule
  | cProfileModule
  | progressbarFn
  | defaultdictFn
  | loggerVar
  | expoFn
  | staticFn
  | somClass
  | numBatchesVar
deriving DecidableEq

/-- the names in scope in Som.train at the line
`X = np.resize(X, (num_batches * batch_size, X.shape[1]))` (src/som.py line
85): the function's parameters self, X, num_epochs, batch_size, the locals
learning_rate, bmus, real_start assigned on lines 78-82, and the module
globals.  `num_batches` is not among them: it is only ever assigned inside
Som.epoch_step. -/
def somTrainScope : List VarName :=
  [VarName.selfArg, VarName.xArg, VarName.numEpochs, VarName.batchSize,
   VarName.learningRate, VarName.bmusVar, VarName.realStart, VarName.npModule,
   VarName.timeModule, VarName.loggingModule, VarName.cProfileModule,
   VarName.progressbarFn, VarName.defaultdictFn, VarName.loggerVar,
   VarName.expoFn, VarName.staticFn, VarName.somClass]

/-- the exception classes Som.train can raise before its epoch loop. -/
inductive PyErr
  | nameError (n : VarName)
deriving DecidableEq

/-- Python name resolution: evaluating a name that is neither local nor global
raises NameError. -/
def pyLookup (scope : List VarName) (n : VarName) : Except PyErr Unit :=
  if n ∈ scope then Except.ok () else Except.error (PyErr.nameError n)

/-- the epoch loop of Som.train (src/som.py lines 89-105): per epoch the map
radius is nbfunc(sigma, epoch, lam) with the default expo schedule, one
epoch_step runs with the current learning rate, its activation array is
appended to bmus, and the learning rate is recomputed from the initial rates
as lrfunc(learning_rates, epoch, num_epochs).  For 2-D input this code is
unreachable (see somTrain). -/
noncomputable def somTrainLoop (w h d : ℕ) (sigma lam lr0 : ℝ)
    (X : List (ℕ → ℝ)) (bs num_epochs : ℕ) (weights0 : ℕ → ℕ → ℝ) :
    List (List (ℕ → ℝ)) :=
  ((List.range num_epochs).foldl
    (fun st epoch =>
      let map_radius := sigma * Real.exp (-(epoch : ℝ) / lam)
      let r := epochStep w h d map_radius st.2.2 X bs st.1
      (r.1, st.2.1 ++ [r.2], lr0 * Real.exp (-(epoch : ℝ) / (num_epochs : ℝ))))
    (weights0, ([] : List (List (ℕ → ℝ))), lr0)).2.1

/-- Som.train (src/som.py lines 62-108) on 2-D input: it first computes
`lam = num_epochs / np.log(sigma)` (numpy float arithmetic, which never
raises), then, since np.ndim(X) == 2, evaluates
`X = np.resize(X, (num_batches * batch_size, X.shape[1]))`; evaluating the
name `num_batches` is the first step of that statement and it is not bound in
the scope, so the call raises NameError before the first epoch and neither
returns a history nor sets trained. -/
noncomputable def somTrain (w h d : ℕ) (sigma lr0 : ℝ)
    (weights0 : ℕ → ℕ → ℝ) (X : List (ℕ → ℝ)) (num_epochs bs : ℕ) :
    Except PyErr (List (List (ℕ → ℝ))) :=
  let lam : ℝ := (num_epochs : ℝ) / Real.log sigma
  match pyLookup somTrainScope VarName.numBatchesVar with
  | Except.error e => Except.error e
  | Except.ok _ => Except.ok (somTrainLoop w h d sigma lam lr0 X bs num_epochs weights0)

/- ===================== THSom (src/thsom.py) ===================== -/

/-- the mutable state of a THSom during epoch_step: spatial weights, temporal
weights, and the per-timeline previous activations and previous BMUs. -/
structure THState where
  weights : ℕ → ℕ → ℝ
  temporalWeights : ℕ → ℕ → ℝ
  prevActivations : ℕ → ℕ → ℝ
  prevBmu : ℕ → ℕ

/-- numpy clip(x, 0.0, 1.0) on one entry. -/
def clip01 (x : ℝ) : ℝ :=
  max 0 (min x 1)

/-- the temporal part of THSom._get_bmus (src/thsom.py lines 69-104):
`temporal_differences[z][i] = sum_h y[z, h] * temporal_weights[i, h]`. -/
noncomputable def thsomTemporalDifferences (m : ℕ) (tw y : ℕ → ℕ → ℝ) :
    ℕ → ℕ → ℝ :=
  fun z i => ∑ hh ∈ Finset.range m, y z hh * tw i hh

/-- THSom._get_bmus raw differences:
`(const_dim - sqrt(sum(square(spatial_differences), axis=2))) + temporal_differences`. -/
noncomputable def thsomDifferences (m d : ℕ) (constDim : ℝ)
    (wts tw y column : ℕ → ℕ → ℝ) : ℕ → ℕ → ℝ :=
  fun z i =>
    (constDim - Real.sqrt (∑ j ∈ Finset.range d, (column z j - wts i j) ^ 2)) +
      thsomTemporalDifferences m tw y z i

/-- the maximum of `f` over indices `0 .. m-1` (numpy .max along an axis). -/
noncomputable def rowMax (m : ℕ) (f : ℕ → ℝ) : ℝ :=
  (List.range m).foldl (fun acc u => max acc (f u)) (f 0)

/-- THSom._get_bmus normalization:
`differences = (differences.T / differences.max(axis=1)).T`. -/
noncomputable def thsomNormalized (m d : ℕ) (constDim : ℝ)
    (wts tw y column : ℕ → ℕ → ℝ) : ℕ → ℕ → ℝ :=
  fun z i =>
    thsomDifferences m d constDim wts tw y column z i /
      rowMax m (thsomDifferences m d constDim wts tw y column z)

/-- one iteration of the inner (per-sequence-position) loop of
THSom.epoch_step (src/thsom.py lines 50-67): activations and BMUs from
_get_bmus, `self.weights = spatial_update.mean(axis=0)` (an assignment, as in
the source), `self.temporal_weights += temporal_update.sum(axis=0)` with
_temporal_update's decay/reinforcement rule, and then both matrices are
clipped to [0, 1] before the next iteration. -/
noncomputable def thsomInnerStep (w h d bs : ℕ)
    (alphaLr zeta beta radius : ℝ) (column : ℕ → ℕ → ℝ) (s : THState) :
    THState :=
  let m := w * h
  let acts := thsomNormalized m d (Real.sqrt d) s.weights s.temporalWeights
    s.prevActivations column
  let bmu := fun z => argmaxIdx m (acts z)
  let infl := somInfluences w h radius alphaLr
  let meanSpatial := fun i j =>
    (∑ z ∈ Finset.range bs, (column z j - s.weights i j) * infl (bmu z) i j) /
      (bs : ℝ)
  let temporalUpdate := fun z i hh =>
    if i = bmu z ∧ hh = s.prevBmu z then
      zeta * (1 - (s.temporalWeights (bmu z) (s.prevBmu z) + beta))
    else
      -(zeta * (s.temporalWeights i hh + beta))
  { weights := fun i j => clip01 (meanSpatial i j)
    temporalWeights := fun i hh =>
      clip01 (s.temporalWeights i hh + ∑ z ∈ Finset.range bs, temporalUpdate z i hh)
    prevActivations := acts
    prevBmu := bmu }

-- ===================== THEOREMS =====================

/-- helper for C6: the mini-batch loop never writes the weights, counts one
update per iteration, and accumulates exactly the per-batch updates computed
against the weights it started with. -/
theorem somFold_spec (m d bs : ℕ) (infl : ℕ → ℕ → ℕ → ℝ)
    (X : List (ℕ → ℝ)) :
    ∀ (l : List ℕ) (s : SomEpochState),
      (l.foldl (somEpochBody m d bs infl X) s).weights = s.weights ∧
      (l.foldl (somEpochBody m d bs infl X) s).numUpdates = s.numUpdates + l.length ∧
      ∀ u j, (l.foldl (somEpochBody m d bs infl X) s).accumulator u j =
        s.accumulator u j +
          (l.map (fun i => batchUpdate m d infl s.weights (sliceBatch X bs i) u j)).sum := by
  intro l
  induction l with
  | nil =>
    intro s
    exact ⟨rfl, rfl, by simp⟩
  | cons a l ih =>
    intro s
    obtain ⟨ihw, ihn, iha⟩ := ih (somEpochBody m d bs infl X s a)
    refine ⟨?_, ?_, ?_⟩
    · rw [List.foldl_cons, ihw]
      rfl
    · rw [List.foldl_cons, ihn]
      simp [somEpochBody, List.length_cons]
      omega
    · intro u j
      rw [List.foldl_cons, iha u j]
      simp only [somEpochBody, List.map_cons, List.sum_cons]
      ring

/-- helper for C7: the first-occurrence argmax returned by the fold attains a
value at least as large as every index in range. -/
theorem foldlMax_le (f : ℕ → ℝ) :
    ∀ (l : List ℕ) (b : ℕ),
      f b ≤ f (l.foldl (fun best u => if f best < f u then u else best) b) ∧
      ∀ v ∈ l, f v ≤ f (l.foldl (fun best u => if f best < f u then u else best) b) := by
  intro l
  induction l with
  | nil =>
    intro b
    exact ⟨le_refl _, by simp⟩
  | cons a l ih =>
    intro b
    have hstep : f b ≤ f (if f b < f a then a else b) := by
      by_cases hba : f b < f a
      · simp only [if_pos hba]
        exact le_of_lt hba
      · simp only [if_neg hba]
        exact le_refl _
    have hstepa : f a ≤ f (if f b < f a then a else b) := by
      by_cases hba : f b < f a
      · simp only [if_pos hba]
        exact le_refl _
      · simp only [if_neg hba]
        exact le_of_not_lt hba
    refine ⟨?_, ?_⟩
    · rw [List.foldl_cons]
      exact le_trans hstep (ih _).1
    · intro v hv
      rw [List.foldl_cons]
      rcases List.mem_cons.mp hv with rfl | hv2
      · exact le_trans hstepa (ih _).1
      · exact (ih _).2 v hv2

/-- helper for C7: `argmaxIdx m f` maximizes `f` over `0 .. m-1`. -/
theorem argmaxIdx_le (m : ℕ) (f : ℕ → ℝ) (u : ℕ) (hu : u < m) :
    f u ≤ f (argmaxIdx m f) :=
  (foldlMax_le f (List.range m) 0).2 u (List.mem_range.mpr hu)

/-- helper for C10: clipping lands in the closed unit interval. -/
theorem clip01_mem (x : ℝ) : 0 ≤ clip01 x ∧ clip01 x ≤ 1 :=
  ⟨le_max_left 0 _, max_le (by norm_num) (min_le_right x 1)⟩

/-- C4: the exponential and linear schedule functions are total except when
`lam = 0` (exponential) respectively `total_epochs = 0` (linear), and in the
degenerate cases they raise ZeroDivisionError (an ArithmeticError) instead of
silently returning a non-finite value. -/
theorem c4_schedule_domain :
    (∀ value current_epoch lam : ℚ, lam ≠ 0 →
      expo value current_epoch lam =
        Except.ok ((value : ℝ) * Real.exp ((-current_epoch / lam : ℚ) : ℝ))) ∧
    (∀ value current_epoch : ℚ,
      expo value current_epoch 0 = Except.error ArithError.zeroDivision) ∧
    (∀ value current_epoch total_epochs : ℚ, total_epochs ≠ 0 →
      linear value current_epoch total_epochs =
        Except.ok (value * (total_epochs - current_epoch) / total_epochs + 1/2)) ∧
    (∀ value current_epoch : ℚ,
      linear value current_epoch 0 = Except.error ArithError.zeroDivision) := by
  refine ⟨?_, ?_, ?_, ?_⟩
  · intro v e lam hlam
    simp [expo, pyDiv, hlam, Except.map]
  · intro v e
    simp [expo, pyDiv, Except.map]
  · intro v e t ht
    simp [linear, pyDiv, ht, Except.map]
  · intro v e
    simp [linear, pyDiv, Except.map]

/-- Witness for C4 at concrete inputs: `linear` succeeds at `total_epochs = 3`
and `expo` raises at `lam = 0`. -/
theorem c4_schedule_domain_witness :
    (3 : ℚ) ≠ 0 ∧
    linear 1 0 3 = Except.ok (1 * (3 - 0) / 3 + 1/2) ∧
    expo 1 0 0 = Except.error ArithError.zeroDivision :=
  ⟨by decide, c4_schedule_domain.2.2.1 1 0 3 (by decide), c4_schedule_domain.2.1 1 0⟩

/-- C9: for `total_epochs > 0` the linear schedule returns exactly
`value * (total_epochs - current_epoch) / total_epochs + 0.5`, including the
`+0.5` offset. -/
theorem c9_linear_formula (value current_epoch total_epochs : ℚ)
    (ht : 0 < total_epochs) :
    linear value current_epoch total_epochs =
      Except.ok (value * (total_epochs - current_epoch) / total_epochs + 1/2) := by
  simp [linear, pyDiv, ne_of_gt ht, Except.map]

/-- Witness for C9 at value 2, epoch 1, total 4. -/
theorem c9_linear_formula_witness :
    (0 : ℚ) < 4 ∧ linear 2 1 4 = Except.ok (2 * (4 - 1) / 4 + 1/2) :=
  ⟨by decide, c9_linear_formula 2 1 4 (by decide)⟩

/-- C2 counterexample: on the non-square map with width 2 and height 3, unit 4
is assigned `(1, 1)` by the cached index dictionary (the `i // height, i % height`
convention the claim asserts for both computations) but `(2, 0)` by
Som._grid_dist, which divides by `cols = width` instead; and the grid-distance
entry from unit 1 to unit 2 is 2 under the implemented convention while the
claimed convention would give 1. -/
theorem c2_counterexample :
    indexDictCoord 3 4 = (4 / 3, 4 % 3) ∧
    gridDistCoord 2 4 = (2, 0) ∧
    gridDistCoord 2 4 ≠ indexDictCoord 3 4 ∧
    gridDist 2 3 1 2 = 2 ∧
    (((2 / 3 : ℕ) : ℤ) - ((1 / 3 : ℕ) : ℤ)) ^ 2 +
      (((2 % 3 : ℕ) : ℤ) - ((1 % 3 : ℕ) : ℤ)) ^ 2 = 1 := by
  decide

/-- C2 amended: the cached index dictionary maps `i ↦ (i // height, i % height)`,
while Som._grid_dist derives its coordinates as `(i // width, i % width)` and its
distance entries are squared Euclidean distances between such width-based
coordinate pairs; the two conventions coincide exactly on square maps
(`width = height`). -/
theorem c2_coordinate_conventions (w h i : ℕ) :
    indexDictCoord h i = (i / h, i % h) ∧
    gridDistCoord w i = (i / w, i % w) ∧
    (w = h → gridDistCoord w i = indexDictCoord h i) ∧
    ∀ j, gridDist w h i j =
      (((j / w : ℕ) : ℤ) - ((i / w : ℕ) : ℤ)) ^ 2 +
        (((j % w : ℕ) : ℤ) - ((i % w : ℕ) : ℤ)) ^ 2 := by
  refine ⟨rfl, rfl, ?_, ?_⟩
  · intro hw
    subst hw
    rfl
  · intro j
    rfl

/-- Witness for C2 amended on the square map of side 2: the two coordinate
conventions agree at unit 1. -/
theorem c2_coordinate_conventions_witness :
    gridDistCoord 2 1 = indexDictCoord 2 1 :=
  (c2_coordinate_conventions 2 2 1).2.2.1 rfl

/-- C8: for every radius `r > 0` the neighborhood kernel equals
`exp(-distanceGrid / (2 r^2))` elementwise, the cached distance grid has zero
diagonal, and hence the kernel's diagonal entries equal 1. -/
theorem c8_influence_kernel (w h : ℕ) (r : ℝ) (hr : 0 < r) (i j : ℕ)
    (hi : i < w * h) :
    influenceGrid w h r i j =
      Real.exp (-(calculateDistanceGrid w h i j : ℝ) / (2 * r ^ 2)) ∧
    calculateDistanceGrid w h i i = 0 ∧
    influenceGrid w h r i i = 1 := by
  have hdiag : calculateDistanceGrid w h i i = 0 := by
    simp [calculateDistanceGrid, gridDist, ravel]
  refine ⟨?_, hdiag, ?_⟩
  · show Real.exp (-1.0 * (calculateDistanceGrid w h i j : ℝ) / (2.0 * r ^ 2)) = _
    exact congrArg Real.exp (by ring)
  · simp [influenceGrid, hdiag]

/-- Witness for C8: on the 2 by 2 map with radius 1 the self-influence of unit 0
is exactly 1. -/
theorem c8_influence_kernel_witness :
    (0 : ℝ) < 1 ∧ (0 : ℕ) < 2 * 2 ∧ influenceGrid 2 2 1 0 0 = 1 :=
  ⟨by norm_num, by norm_num,
    (c8_influence_kernel 2 2 1 (by norm_num) 0 1 (by norm_num)).2.2⟩

/-- C3: the positional super() call in Recursive.__init__ does NOT bind each
argument to the base parameter of the same meaning: constructing a Recursive
model with sigma 1/2, lrfunc expo and nbfunc linear stores the expo function
object as the model's sigma, linear as its lrfunc and the number 1/2 as its
nbfunc, because `(lrfunc, nbfunc, sigma)` land in Sequential's
`(sigma, lrfunc, nbfunc)` positional slots. -/
theorem c3_super_positional_swap :
    (recursiveInit [3, 3] 2 (PyVal.num 1) (PyVal.num 3) (PyVal.num 1)
        (PyVal.num (1/2)) (PyVal.fn FnTag.expo) (PyVal.fn FnTag.linear)
        []).base.sigma = PyVal.fn FnTag.expo ∧
    (recursiveInit [3, 3] 2 (PyVal.num 1) (PyVal.num 3) (PyVal.num 1)
        (PyVal.num (1/2)) (PyVal.fn FnTag.expo) (PyVal.fn FnTag.linear)
        []).base.lrfunc = PyVal.fn FnTag.linear ∧
    (recursiveInit [3, 3] 2 (PyVal.num 1) (PyVal.num 3) (PyVal.num 1)
        (PyVal.num (1/2)) (PyVal.fn FnTag.expo) (PyVal.fn FnTag.linear)
        []).base.nbfunc = PyVal.num (1/2) ∧
    (recursiveInit [3, 3] 2 (PyVal.num 1) (PyVal.num 3) (PyVal.num 1)
        (PyVal.num (1/2)) (PyVal.fn FnTag.expo) (PyVal.fn FnTag.linear)
        []).base.sigma ≠ PyVal.num (1/2) := by
  refine ⟨rfl, rfl, rfl, ?_⟩
  simp [recursiveInit, sequentialInit]

/-- C5 counterexample: loading a Recursive file whose alpha key is present with
value 5 but whose beta key is absent does not keep the persisted alpha; the
grouped try/except resets alpha to the default 3. -/
theorem c5_counterexample :
    recFileBetaMissing.alpha = some 5 ∧
    (recursiveLoad recFileBetaMissing).alpha ≠ PyVal.num 5 ∧
    (recursiveLoad recFileBetaMissing).alpha = PyVal.num 3 := by
  decide

/-- C5 amended: Recursive.load and Merging.load are total on parsed files with
the required keys (no absence of an optional key makes them fail), trained is
set, and context_weights independently defaults to zeros (Recursive) or a
ones matrix of the weights' shape (Merging); but alpha/beta (Recursive) and
alpha/beta/entropy (Merging) behave as one group: they keep their persisted
values only when the whole group is present, and if any key of the group is
absent every key of the group takes the documented fallback
(alpha=3, beta=1 for Recursive; alpha=0, beta=1/2, entropy=0 for Merging). -/
theorem c5_load_defaults :
    (∀ f : RecursiveSaveData,
      (recursiveLoad f).trained = true ∧
      (∀ cw, f.context_weights = some cw → (recursiveLoad f).context_weights = cw) ∧
      (f.context_weights = none → (recursiveLoad f).context_weights =
        List.replicate f.weights.length (List.replicate f.weights.length 0)) ∧
      (∀ a b, f.alpha = some a → f.beta = some b →
        (recursiveLoad f).alpha = PyVal.num a ∧ (recursiveLoad f).beta = PyVal.num b) ∧
      ((f.alpha = none ∨ f.beta = none) →
        (recursiveLoad f).alpha = PyVal.num 3 ∧ (recursiveLoad f).beta = PyVal.num 1)) ∧
    (∀ g : MergingSaveData,
      (mergingLoad g).trained = true ∧
      (∀ cw, g.context_weights = some cw → (mergingLoad g).context_weights = cw) ∧
      (g.context_weights = none → (mergingLoad g).context_weights = onesLike g.weights) ∧
      (∀ a b e, g.alpha = some a → g.beta = some b → g.entropy = some e →
        (mergingLoad g).alpha = PyVal.num a ∧ (mergingLoad g).beta = PyVal.num b ∧
          (mergingLoad g).entropy = e) ∧
      ((g.alpha = none ∨ g.beta = none ∨ g.entropy = none) →
        (mergingLoad g).alpha = PyVal.num 0 ∧ (mergingLoad g).beta = PyVal.num (1/2) ∧
          (mergingLoad g).entropy = 0)) := by
  constructor
  · intro f
    refine ⟨rfl, ?_, ?_, ?_, ?_⟩
    · intro cw hcw
      simp [recursiveLoad, hcw]
    · intro hcw
      simp [recursiveLoad, hcw]
    · intro a b ha hb
      constructor <;> simp [recursiveLoad, ha, hb, recursiveInit]
    · intro h
      rcases h with h | h
      · constructor <;> rcases hb : f.beta <;> simp [recursiveLoad, h, hb, recursiveInit]
      · constructor <;> rcases ha : f.alpha <;> simp [recursiveLoad, h, ha, recursiveInit]
  · intro g
    refine ⟨rfl, ?_, ?_, ?_, ?_⟩
    · intro cw hcw
      simp [mergingLoad, hcw]
    · intro hcw
      simp [mergingLoad, hcw]
    · intro a b e ha hb he
      refine ⟨?_, ?_, ?_⟩ <;> simp [mergingLoad, ha, hb, he, mergingInit]
    · intro h
      rcases h with h | h | h
      · refine ⟨?_, ?_, ?_⟩ <;> rcases hb : g.beta <;> rcases he : g.entropy <;>
          simp [mergingLoad, h, hb, he, mergingInit]
      · refine ⟨?_, ?_, ?_⟩ <;> rcases ha : g.alpha <;> rcases he : g.entropy <;>
          simp [mergingLoad, h, ha, he, mergingInit]
      · refine ⟨?_, ?_, ?_⟩ <;> rcases ha : g.alpha <;> rcases hb : g.beta <;>
          simp [mergingLoad, h, ha, hb, mergingInit]
  
/-- Witness for C5 amended: on a file with all optional keys present the
persisted alpha 5 and beta 7 are kept and trained is set. -/
theorem c5_load_defaults_witness :
    recFileAllKeys.alpha = some 5 ∧
    (recursiveLoad recFileAllKeys).alpha = PyVal.num 5 ∧
    (recursiveLoad recFileAllKeys).beta = PyVal.num 7 ∧
    (recursiveLoad recFileAllKeys).trained = true :=
  ⟨rfl,
    ((c5_load_defaults.1 recFileAllKeys).2.2.2.1 5 7 rfl rfl).1,
    ((c5_load_defaults.1 recFileAllKeys).2.2.2.1 5 7 rfl rfl).2,
    (c5_load_defaults.1 recFileAllKeys).1⟩

/-- C1: calling Som.train on a 2-D input raises NameError (the name
num_batches is evaluated before it is ever assigned) instead of completing:
here a concrete run on a one-row input with one epoch and batch size one. -/
theorem c1_train_name_error :
    somTrain 2 2 1 (3/2) 1 (fun _ _ => 0) [fun _ => 0] 1 1 =
      Except.error (PyErr.nameError VarName.numBatchesVar) := by
  have hmem : VarName.numBatchesVar ∉ somTrainScope := by decide
  simp [somTrain, pyLookup, hmem]

/-- C6: during one epoch step of the base/batch variant the weights stay
unchanged throughout the mini-batch loop, the update counter ends at the
number of mini-batches, the accumulator holds exactly the sum of the per-batch
deltas computed against the initial weights, and the returned weights are the
initial weights incremented once by the accumulated delta divided by the
number of mini-batches. -/
theorem c6_batch_discipline (w h d : ℕ) (map_radius lr0 : ℝ)
    (X : List (ℕ → ℝ)) (bs : ℕ) (w0 : ℕ → ℕ → ℝ)
    (hbs : 0 < bs) (hX : X ≠ []) :
    (somEpochLoop (w * h) d bs (somInfluences w h map_radius lr0) X
      { weights := w0, accumulator := fun _ _ => 0, numUpdates := 0,
        allActivations := [] }).weights = w0 ∧
    (somEpochLoop (w * h) d bs (somInfluences w h map_radius lr0) X
      { weights := w0, accumulator := fun _ _ => 0, numUpdates := 0,
        allActivations := [] }).numUpdates = numBatches X.length bs ∧
    (∀ u j,
      (somEpochLoop (w * h) d bs (somInfluences w h map_radius lr0) X
        { weights := w0, accumulator := fun _ _ => 0, numUpdates := 0,
          allActivations := [] }).accumulator u j =
        ((List.range (numBatches X.length bs)).map
          (fun i => batchUpdate (w * h) d (somInfluences w h map_radius lr0) w0
            (sliceBatch X bs i) u j)).sum) ∧
    (∀ u j,
      (epochStep w h d map_radius lr0 X bs w0).1 u j =
        w0 u j +
          ((List.range (numBatches X.length bs)).map
            (fun i => batchUpdate (w * h) d (somInfluences w h map_radius lr0) w0
              (sliceBatch X bs i) u j)).sum / (numBatches X.length bs : ℝ)) := by
  obtain ⟨hw, hn, ha⟩ := somFold_spec (w * h) d bs (somInfluences w h map_radius lr0) X
    (List.range (numBatches X.length bs))
    { weights := w0, accumulator := fun _ _ => 0, numUpdates := 0,
      allActivations := [] }
  have hw' : (somEpochLoop (w * h) d bs (somInfluences w h map_radius lr0) X
      { weights := w0, accumulator := fun _ _ => 0, numUpdates := 0,
        allActivations := [] }).weights = w0 := by
    simpa [somEpochLoop] using hw
  have hn' : (somEpochLoop (w * h) d bs (somInfluences w h map_radius lr0) X
      { weights := w0, accumulator := fun _ _ => 0, numUpdates := 0,
        allActivations := [] }).numUpdates = numBatches X.length bs := by
    simpa [somEpochLoop] using hn
  have ha' : ∀ u j, (somEpochLoop (w * h) d bs (somInfluences w h map_radius lr0) X
      { weights := w0, accumulator := fun _ _ => 0, numUpdates := 0,
        allActivations := [] }).accumulator u j =
        ((List.range (numBatches X.length bs)).map
          (fun i => batchUpdate (w * h) d (somInfluences w h map_radius lr0) w0
            (sliceBatch X bs i) u j)).sum := by
    intro u j
    simpa [somEpochLoop] using ha u j
  refine ⟨hw', hn', ha', ?_⟩
  intro u j
  show (somEpochLoop (w * h) d bs (somInfluences w h map_radius lr0) X
      { weights := w0, accumulator := fun _ _ => 0, numUpdates := 0,
        allActivations := [] }).weights u j +
    (somEpochLoop (w * h) d bs (somInfluences w h map_radius lr0) X
      { weights := w0, accumulator := fun _ _ => 0, numUpdates := 0,
        allActivations := [] }).accumulator u j /
      ((somEpochLoop (w * h) d bs (somInfluences w h map_radius lr0) X
        { weights := w0, accumulator := fun _ _ => 0, numUpdates := 0,
          allActivations := [] }).numUpdates : ℝ) = _
  rw [hw', hn', ha' u j]

/-- Witness for C6 on a one-example, one-unit configuration. -/
theorem c6_batch_discipline_witness :
    0 < 1 ∧ ([fun _ => (1 : ℝ)] ≠ ([] : List (ℕ → ℝ))) ∧
    (somEpochLoop (1 * 1) 1 1 (somInfluences 1 1 1 1) [fun _ => 1]
      { weights := fun _ _ => 0, accumulator := fun _ _ => 0, numUpdates := 0,
        allActivations := [] }).weights = (fun _ _ => 0) :=
  ⟨Nat.one_pos, List.cons_ne_nil _ _,
    (c6_batch_discipline 1 1 1 1 1 [fun _ => 1] 1 (fun _ _ => 0) Nat.one_pos
      (List.cons_ne_nil _ _)).1⟩

/-- C7: the Recursive BMU search returns the activation
`exp(-(alpha * spatialDistance + beta * contextDistance))` per unit; for
non-negative alpha and beta (the distances are square roots and hence
non-negative) this is a similarity score in `(0, 1]`; the Recursive
constructor installs np_max as its winner function, and that winner function
selects an index maximizing the activation. -/
theorem c7_recursive_activation (m d : ℕ) (alpha beta : ℝ)
    (wts cw : ℕ → ℕ → ℝ) (x prev : ℕ → ℝ)
    (ha : 0 ≤ alpha) (hb : 0 ≤ beta) :
    (∀ u, recursiveGetBmus m d alpha beta wts cw x prev u =
      Real.exp (-(alpha * euclidean d x wts u + beta * euclidean m prev cw u))) ∧
    (∀ u, 0 < recursiveGetBmus m d alpha beta wts cw x prev u ∧
      recursiveGetBmus m d alpha beta wts cw x prev u ≤ 1) ∧
    (∀ (md : List ℕ) (dd : ℕ) (lr av bv sv lf nf : PyVal) (iw : List (List ℚ)),
      (recursiveInit md dd lr av bv sv lf nf iw).base.minMax = MinMaxTag.max) ∧
    (∀ u, u < m →
      recursiveGetBmus m d alpha beta wts cw x prev u ≤
        recursiveGetBmus m d alpha beta wts cw x prev
          ((minMaxApply MinMaxTag.max m
            (recursiveGetBmus m d alpha beta wts cw x prev)).2)) := by
  refine ⟨?_, ?_, ?_, ?_⟩
  · intro u
    show Real.exp (-(euclidean d x wts u * alpha + euclidean m prev cw u * beta)) =
      Real.exp (-(alpha * euclidean d x wts u + beta * euclidean m prev cw u))
    exact congrArg Real.exp (by ring)
  · intro u
    have e1 : 0 ≤ euclidean d x wts u := Real.sqrt_nonneg _
    have e2 : 0 ≤ euclidean m prev cw u := Real.sqrt_nonneg _
    constructor
    · show 0 < Real.exp (-(euclidean d x wts u * alpha + euclidean m prev cw u * beta))
      exact Real.exp_pos _
    · show Real.exp (-(euclidean d x wts u * alpha + euclidean m prev cw u * beta)) ≤ 1
      have harg : -(euclidean d x wts u * alpha + euclidean m prev cw u * beta) ≤ 0 := by
        have h1 : 0 ≤ euclidean d x wts u * alpha := mul_nonneg e1 ha
        have h2 : 0 ≤ euclidean m prev cw u * beta := mul_nonneg e2 hb
        linarith
      calc Real.exp (-(euclidean d x wts u * alpha + euclidean m prev cw u * beta)) ≤
            Real.exp 0 := Real.exp_le_exp.mpr harg
        _ = 1 := Real.exp_zero
  · intro md dd lr av bv sv lf nf iw
    rfl
  · intro u hu
    have h := argmaxIdx_le m (recursiveGetBmus m d alpha beta wts cw x prev) u hu
    simpa [minMaxApply, npMax] using h

/-- Witness for C7: with alpha = 1, beta = 2 and all-zero weights and inputs
the activation of unit 0 is positive, at most 1, and equal to the documented
exponential form. -/
theorem c7_recursive_activation_witness :
    (0 : ℝ) ≤ 1 ∧ (0 : ℝ) ≤ 2 ∧
    0 < recursiveGetBmus 1 1 1 2 (fun _ _ => 0) (fun _ _ => 0) (fun _ => 0)
      (fun _ => 0) 0 ∧
    recursiveGetBmus 1 1 1 2 (fun _ _ => 0) (fun _ _ => 0) (fun _ => 0)
      (fun _ => 0) 0 ≤ 1 :=
  ⟨by norm_num, by norm_num,
    ((c7_recursive_activation 1 1 1 2 (fun _ _ => 0) (fun _ _ => 0) (fun _ => 0)
      (fun _ => 0) (by norm_num) (by norm_num)).2.1 0).1,
    ((c7_recursive_activation 1 1 1 2 (fun _ _ => 0) (fun _ _ => 0) (fun _ => 0)
      (fun _ => 0) (by norm_num) (by norm_num)).2.1 0).2⟩

/-- C10: after any single inner step of THSom.epoch_step every entry of the
weight matrix and of the temporal weight matrix lies in [0, 1], because both
matrices are clipped to that range at the end of the step; since this holds
from an arbitrary starting state, the bound is an invariant across all
training steps. -/
theorem c10_thsom_clip_invariant (w h d bs : ℕ)
    (alphaLr zeta beta radius : ℝ) (column : ℕ → ℕ → ℝ) (s : THState)
    (i j : ℕ) :
    (0 ≤ (thsomInnerStep w h d bs alphaLr zeta beta radius column s).weights i j ∧
      (thsomInnerStep w h d bs alphaLr zeta beta radius column s).weights i j ≤ 1) ∧
    (0 ≤ (thsomInnerStep w h d bs alphaLr zeta beta radius column s).temporalWeights i j ∧
      (thsomInnerStep w h d bs alphaLr zeta beta radius column s).temporalWeights i j ≤ 1) :=
  ⟨clip01_mem _, clip01_mem _⟩
